import Mathlib

/-!
Verification development for the american-pizzabackend repository.

The JavaScript source is shallowly embedded below:

* `Offer`, `createOffer`, `updateOffer`, `activeOffers` model
  `src/models/Offer.js` and `src/routes/offerRoutes.js`;
* `LocalTime`, `dailyWindow`, `weeklyWindow`, `selectReportOrders`,
  `salesSummary` model the sales-report route (`GET /api/sales/report`);
* `generateOrderPDF` models the order-receipt renderer.

Machine conventions: JavaScript numbers are modelled as `ℚ` (`NaN` as
`Option.none` where the code can produce it), `Date` values as integer
epoch instants, and `parseFloat` / `new Date(string)` as explicit
parse-function parameters returning `Option` (`none` = `NaN` /
`Invalid Date`).  Strings absent from a request body are `Option.none`
or `""` according to how the route destructures them.
-/

namespace AmericanPizza

/-- ASCII upper-casing of one character, the behaviour of JavaScript
`String.prototype.toUpperCase` on the code points this backend uses. -/
def upChar (c : Char) : Char :=
  if c = 'a' then 'A' else if c = 'b' then 'B' else if c = 'c' then 'C'
  else if c = 'd' then 'D' else if c = 'e' then 'E' else if c = 'f' then 'F'
  else if c = 'g' then 'G' else if c = 'h' then 'H' else if c = 'i' then 'I'
  else if c = 'j' then 'J' else if c = 'k' then 'K' else if c = 'l' then 'L'
  else if c = 'm' then 'M' else if c = 'n' then 'N' else if c = 'o' then 'O'
  else if c = 'p' then 'P' else if c = 'q' then 'Q' else if c = 'r' then 'R'
  else if c = 's' then 'S' else if c = 't' then 'T' else if c = 'u' then 'U'
  else if c = 'v' then 'V' else if c = 'w' then 'W' else if c = 'x' then 'X'
  else if c = 'y' then 'Y' else if c = 'z' then 'Z' else c

/-- JavaScript `s.toUpperCase()`. -/
def jsToUpper (s : String) : String := ⟨s.data.map upChar⟩

/-- Whitespace recognised by JavaScript `String.prototype.trim`
(restricted to the ASCII whitespace actually relevant here). -/
def isJsSpace (c : Char) : Bool :=
  c = ' ' || c = '\t' || c = '\n' || c = '\r'

/-- Character-list version of `trim`: drop whitespace from both ends. -/
def trimChars (l : List Char) : List Char :=
  ((l.dropWhile isJsSpace).reverse.dropWhile isJsSpace).reverse

/-- JavaScript `s.trim()`. -/
def jsTrim (s : String) : String := ⟨trimChars s.data⟩

theorem upChar_idem (c : Char) : upChar (upChar c) = upChar c := by
  by_cases h1 : c = 'a'; · subst h1; decide
  by_cases h2 : c = 'b'; · subst h2; decide
  by_cases h3 : c = 'c'; · subst h3; decide
  by_cases h4 : c = 'd'; · subst h4; decide
  by_cases h5 : c = 'e'; · subst h5; decide
  by_cases h6 : c = 'f'; · subst h6; decide
  by_cases h7 : c = 'g'; · subst h7; decide
  by_cases h8 : c = 'h'; · subst h8; decide
  by_cases h9 : c = 'i'; · subst h9; decide
  by_cases h10 : c = 'j'; · subst h10; decide
  by_cases h11 : c = 'k'; · subst h11; decide
  by_cases h12 : c = 'l'; · subst h12; decide
  by_cases h13 : c = 'm'; · subst h13; decide
  by_cases h14 : c = 'n'; · subst h14; decide
  by_cases h15 : c = 'o'; · subst h15; decide
  by_cases h16 : c = 'p'; · subst h16; decide
  by_cases h17 : c = 'q'; · subst h17; decide
  by_cases h18 : c = 'r'; · subst h18; decide
  by_cases h19 : c = 's'; · subst h19; decide
  by_cases h20 : c = 't'; · subst h20; decide
  by_cases h21 : c = 'u'; · subst h21; decide
  by_cases h22 : c = 'v'; · subst h22; decide
  by_cases h23 : c = 'w'; · subst h23; decide
  by_cases h24 : c = 'x'; · subst h24; decide
  by_cases h25 : c = 'y'; · subst h25; decide
  by_cases h26 : c = 'z'; · subst h26; decide
  have h : upChar c = c := by
    simp only [upChar, if_neg h1, if_neg h2, if_neg h3, if_neg h4, if_neg h5,
      if_neg h6, if_neg h7, if_neg h8, if_neg h9, if_neg h10, if_neg h11,
      if_neg h12, if_neg h13, if_neg h14, if_neg h15, if_neg h16, if_neg h17,
      if_neg h18, if_neg h19, if_neg h20, if_neg h21, if_neg h22, if_neg h23,
      if_neg h24, if_neg h25, if_neg h26]
  rw [h]
  exact h

theorem mem_trimChars {c : Char} {l : List Char} (h : c ∈ trimChars l) :
    c ∈ l := by
  unfold trimChars at h
  rw [List.mem_reverse] at h
  have h2 := (List.dropWhile_sublist (l := (l.dropWhile isJsSpace).reverse)
    (p := isJsSpace)).subset h
  rw [List.mem_reverse] at h2
  exact (List.dropWhile_sublist (l := l) (p := isJsSpace)).subset h2

theorem map_upChar_of_fixed {l : List Char} (h : ∀ c ∈ l, upChar c = c) :
    l.map upChar = l := by
  induction l with
  | nil => rfl
  | cons a t ih =>
    simp only [List.map_cons, h a (List.mem_cons_self a t),
      ih (fun c hc => h c (List.mem_cons_of_mem a hc))]

theorem jsToUpper_idem (s : String) : jsToUpper (jsToUpper s) = jsToUpper s := by
  unfold jsToUpper
  congr 1
  simp only [List.map_map]
  exact List.map_congr_left (fun c _ => upChar_idem c)

theorem jsToUpper_jsTrim_jsToUpper (s : String) :
    jsToUpper (jsTrim (jsToUpper s)) = jsTrim (jsToUpper s) := by
  unfold jsToUpper jsTrim
  congr 1
  apply map_upChar_of_fixed
  intro c hc
  have hmem : c ∈ (String.mk (s.data.map upChar)).data := mem_trimChars hc
  simp only [List.mem_map] at hmem
  obtain ⟨b, _, hb⟩ := hmem
  rw [← hb]
  exact upChar_idem b

/-- A stored offer document (`src/models/Offer.js`).  All numeric
fields hold actual numbers: mongoose's number cast rejects `NaN` and
the required-string validator rejects empty strings, so a document that
violates them is never saved. -/
structure Offer where
  id : ℕ
  title : String
  description : String
  discount : ℚ
  code : String
  validFrom : ℤ
  validUntil : ℤ
  isActive : Bool
  minOrderAmount : ℚ
  image : String
  cloudinaryId : String
  deriving DecidableEq

/-- Body of `POST /api/offers` after multipart parsing: every field is a
string, and an absent field arrives as `""` (JavaScript `undefined` is
falsy in the route's checks exactly like the empty string). -/
structure CreateReq where
  title : String
  description : String
  discount : String
  code : String
  validFrom : String
  validUntil : String
  minOrderAmount : String
  deriving DecidableEq

/-- Outcome of the create route.  Every constructor except `created`
is answered with an HTTP 400 and the store unchanged; `badValidation`
is the mongoose `ValidationError` raised by `Offer.create` itself (a
required string that trimmed to empty, or a `NaN` minimum order
amount), caught by the route's `error.name === 'ValidationError'`
branch. -/
inductive CreateResult where
  | missingFields
  | badDiscount
  | badDate
  | badDateOrder
  | codeConflict
  | badValidation
  | created (offer : Offer)
  deriving DecidableEq

/-- `router.post('/')` of `src/routes/offerRoutes.js` (lines 56-138),
with the image upload omitted (no file, so `image = ''`).  `pf` models
`parseFloat` (`none` = `NaN`) and `pd` models `new Date(s).getTime()`
(`none` = `Invalid Date`).  The final duplicate test models the unique
index on `code`: a duplicate-key error (`error.code === 11000`) is also
answered with 400 `"Offer code already exists"`.

`Offer.create` casts and validates before inserting.  The route has
already range-checked `discountNum`, so the schema `min`/`max`
validators on `discount` cannot fire here; what can fire: a required
string whose value trimmed to the empty string (the required-String
validator), and `parseFloat(minOrderAmount)` yielding `NaN` (the
number cast).  Either raises a `ValidationError`, answered 400
(`badValidation`), before the unique-index insert. -/
def createOffer (pf : String → Option ℚ) (pd : String → Option ℤ)
    (req : CreateReq) (store : List Offer) (newId : ℕ) : CreateResult :=
  if req.title = "" ∨ req.description = "" ∨ req.discount = "" ∨
      req.code = "" ∨ req.validFrom = "" ∨ req.validUntil = "" then
    .missingFields
  else
    match pf req.discount with
    | none => .badDiscount
    | some discountNum =>
      if discountNum < 0 ∨ 100 < discountNum then .badDiscount
      else
        match pd req.validFrom, pd req.validUntil with
        | some fromDate, some untilDate =>
          if untilDate ≤ fromDate then .badDateOrder
          else if store.any (fun o => o.code == jsToUpper req.code) then
            .codeConflict
          else
            match (if req.minOrderAmount ≠ "" then pf req.minOrderAmount
                else some 0) with
            | none => .badValidation
            | some minOrder =>
              if jsTrim req.title = "" ∨ jsTrim req.description = "" ∨
                  jsTrim (jsToUpper req.code) = "" then .badValidation
              else
                let offer : Offer :=
                  { id := newId
                    title := jsTrim req.title
                    description := jsTrim req.description
                    discount := discountNum
                    code := jsTrim (jsToUpper req.code)
                    validFrom := fromDate
                    validUntil := untilDate
                    isActive := true
                    minOrderAmount := minOrder
                    image := ""
                    cloudinaryId := "" }
                if store.any (fun o => o.code == offer.code) then
                  .codeConflict
                else .created offer
        | _, _ => .badDate

/-- The save-time mongoose checks of `Offer.create` that the route does
not pre-check itself: the required strings must stay non-empty after
trimming, and a supplied `minOrderAmount` must parse to a number. -/
def mongooseCreateOk (pf : String → Option ℚ) (req : CreateReq) : Prop :=
  jsTrim req.title ≠ "" ∧ jsTrim req.description ≠ "" ∧
  jsTrim (jsToUpper req.code) ≠ "" ∧
  (req.minOrderAmount ≠ "" → pf req.minOrderAmount ≠ none)

/-- `router.get('/')` of `src/routes/offerRoutes.js` (lines 39-51): the
public listing keeps the offers with `isActive: true`,
`validFrom: ≤ now` and `validUntil: ≥ now`. -/
def activeOffers (store : List Offer) (now : ℤ) : List Offer :=
  store.filter (fun o =>
    o.isActive && decide (o.validFrom ≤ now) && decide (now ≤ o.validUntil))

/-- Body of `PUT /api/offers/:id`: `none` is an absent field
(`undefined` after destructuring). -/
structure UpdateReq where
  title : Option String
  description : Option String
  discount : Option String
  code : Option String
  validFrom : Option String
  validUntil : Option String
  isActive : Option Bool
  minOrderAmount : Option String
  deriving DecidableEq

/-- Outcome of the update route.  `codeConflict` is the 400 answer,
`saveError` the 500 answer when `offer.save()` rejects the patched
document; in both cases the store is untouched. -/
inductive UpdateResult where
  | notFound
  | codeConflict
  | saveError
  | updated (store : List Offer)
  deriving DecidableEq

/-- Field patching of `router.put('/:id')` (lines 152-166).  Each guard
is the route's own: `if (title)` is JavaScript truthiness (skips `""`),
`discount !== undefined`, `isActive !== undefined` and
`minOrderAmount !== undefined` only test presence.  A `parseFloat` or
date-parse failure is represented by keeping the old value here and
recording the failure in `patchOk`, since mongoose refuses to save such
a document. -/
def patchOffer (pf : String → Option ℚ) (pd : String → Option ℤ)
    (offer : Offer) (req : UpdateReq) : Offer :=
  { offer with
    title := match req.title with
      | some t => if t ≠ "" then t else offer.title
      | none => offer.title
    description := match req.description with
      | some d => if d ≠ "" then d else offer.description
      | none => offer.description
    discount := match req.discount with
      | some d => (pf d).getD offer.discount
      | none => offer.discount
    code := match req.code with
      | some c => if c ≠ "" then jsToUpper c else offer.code
      | none => offer.code
    validFrom := match req.validFrom with
      | some v => if v ≠ "" then (pd v).getD offer.validFrom else offer.validFrom
      | none => offer.validFrom
    validUntil := match req.validUntil with
      | some v => if v ≠ "" then (pd v).getD offer.validUntil else offer.validUntil
      | none => offer.validUntil
    isActive := match req.isActive with
      | some b => b
      | none => offer.isActive
    minOrderAmount := match req.minOrderAmount with
      | some m => (pf m).getD offer.minOrderAmount
      | none => offer.minOrderAmount }

/-- Whether `offer.save()` succeeds after the patch: a present discount
must parse and the parsed value must pass the schema `min: 0` and
`max: 100` validators, a present `minOrderAmount` must parse (mongoose
cannot cast `NaN`), and a present non-empty date string must parse
(`Invalid Date` fails the cast).  When any of these fails the route
answers 500 and persists nothing. -/
def patchOk (pf : String → Option ℚ) (pd : String → Option ℤ)
    (req : UpdateReq) : Bool :=
  (match req.discount with
    | some d =>
      match pf d with
      | some q => decide (0 ≤ q) && decide (q ≤ 100)
      | none => false
    | none => true) &&
  (match req.minOrderAmount with
    | some m => (pf m).isSome
    | none => true) &&
  (match req.validFrom with
    | some v => if v ≠ "" then (pd v).isSome else true
    | none => true) &&
  (match req.validUntil with
    | some v => if v ≠ "" then (pd v).isSome else true
    | none => true)

/-- `router.put('/:id')` of `src/routes/offerRoutes.js` (lines 143-203),
image upload omitted.  The code-conflict early return happens before
`offer.save()`, so on conflict nothing is persisted; checking the
conflict before the patch is therefore behaviourally faithful. -/
def updateOffer (pf : String → Option ℚ) (pd : String → Option ℤ)
    (store : List Offer) (oid : ℕ) (req : UpdateReq) : UpdateResult :=
  match store.find? (fun o => o.id == oid) with
  | none => .notFound
  | some offer =>
    if (match req.code with
        | some c =>
          c != "" && store.any (fun o => o.code == jsToUpper c && o.id != oid)
        | none => false) then
      .codeConflict
    else if patchOk pf pd req then
      .updated (store.map (fun o =>
        if o.id == oid then patchOffer pf pd offer req else o))
    else .saveError

/-- All six required body fields of the create route are present
(truthy strings). -/
def requiredPresent (req : CreateReq) : Prop :=
  req.title ≠ "" ∧ req.description ≠ "" ∧ req.discount ≠ "" ∧
  req.code ≠ "" ∧ req.validFrom ≠ "" ∧ req.validUntil ≠ ""

lemma any_code_eq_false {store : List Offer} {s : String}
    (h : ∀ o ∈ store, o.code ≠ s) :
    store.any (fun o => o.code == s) = false := by
  rw [List.any_eq_false]
  intro o ho
  simpa using h o ho

/-- C1: with all required fields present and every other validation
passing (both dates parse, `validFrom < validUntil`, no code conflict,
and the document savable: required strings stay non-empty after
trimming and a supplied minimum order amount parses), offer creation
succeeds iff the discount parses to a number `d` with `0 ≤ d ≤ 100`;
an unparseable (`NaN`) or out-of-range discount — in particular
`d = -1` or `d = 101` — is answered with the 400-class result
`badDiscount`, while `d = 0` and `d = 100` succeed. -/
theorem createOffer_discount_range (pf : String → Option ℚ)
    (pd : String → Option ℤ) (req : CreateReq) (store : List Offer) (newId : ℕ)
    (hpres : requiredPresent req) (f u : ℤ)
    (hf : pd req.validFrom = some f) (hu : pd req.validUntil = some u)
    (hord : f < u)
    (hnoconf : ∀ o ∈ store, o.code ≠ jsToUpper req.code ∧
      o.code ≠ jsTrim (jsToUpper req.code))
    (hsave : mongooseCreateOk pf req) :
    ((∃ o, createOffer pf pd req store newId = .created o) ↔
      ∃ d, pf req.discount = some d ∧ 0 ≤ d ∧ d ≤ 100) ∧
    (∀ d, pf req.discount = some d → (d < 0 ∨ 100 < d) →
      createOffer pf pd req store newId = .badDiscount) ∧
    (pf req.discount = none →
      createOffer pf pd req store newId = .badDiscount) := by
  obtain ⟨h1, h2, h3, h4, h5, h6⟩ := hpres
  obtain ⟨ht, hde, hco, hmo⟩ := hsave
  have hmiss : ¬(req.title = "" ∨ req.description = "" ∨ req.discount = "" ∨
      req.code = "" ∨ req.validFrom = "" ∨ req.validUntil = "") := by tauto
  have hval : ¬(jsTrim req.title = "" ∨ jsTrim req.description = "" ∨
      jsTrim (jsToUpper req.code) = "") := by tauto
  obtain ⟨mo, hmo2⟩ : ∃ q, (if req.minOrderAmount ≠ "" then
      pf req.minOrderAmount else some 0) = some q := by
    by_cases hm : req.minOrderAmount ≠ ""
    · rw [if_pos hm]
      cases hq : pf req.minOrderAmount with
      | none => exact absurd hq (hmo hm)
      | some q => exact ⟨q, rfl⟩
    · rw [if_neg hm]
      exact ⟨0, rfl⟩
  have hb1 : store.any (fun o => o.code == jsToUpper req.code) = false :=
    any_code_eq_false (fun o ho => (hnoconf o ho).1)
  have hb2 : store.any (fun o => o.code == jsTrim (jsToUpper req.code)) = false :=
    any_code_eq_false (fun o ho => (hnoconf o ho).2)
  have hnotle : ¬ (u ≤ f) := not_le.mpr hord
  refine ⟨⟨?_, ?_⟩, ?_, ?_⟩
  · rintro ⟨o, ho⟩
    unfold createOffer at ho
    rw [if_neg hmiss] at ho
    cases hpf : pf req.discount with
    | none => simp [hpf] at ho
    | some d =>
      by_cases hr : d < 0 ∨ 100 < d
      · simp [hpf, if_pos hr] at ho
      · push_neg at hr
        exact ⟨d, rfl, hr.1, hr.2⟩
  · rintro ⟨d, hpf, hd0, hd1⟩
    have hnr : ¬(d < 0 ∨ 100 < d) := by push_neg; exact ⟨hd0, hd1⟩
    refine ⟨(⟨newId, jsTrim req.title, jsTrim req.description, d,
      jsTrim (jsToUpper req.code), f, u, true, mo, "", ""⟩ : Offer), ?_⟩
    unfold createOffer
    rw [if_neg hmiss]
    simp only [hpf, hf, hu, if_neg hnr, if_neg hnotle, hb1, hmo2,
      if_neg hval, hb2, Bool.false_eq_true, if_false]
  · intro d hpf hr
    unfold createOffer
    rw [if_neg hmiss]
    simp only [hpf, if_pos hr]
  · intro hpf
    unfold createOffer
    rw [if_neg hmiss]
    simp only [hpf]

/-- Concrete `parseFloat` fragment used by the witnesses. -/
def pfW : String → Option ℚ := fun s =>
  if s = "0" then some 0 else if s = "100" then some 100
  else if s = "-1" then some (-1) else if s = "101" then some 101
  else if s = "50" then some 50 else none

/-- Concrete date parser used by the witnesses. -/
def pdW : String → Option ℤ := fun s =>
  if s = "A" then some 100 else if s = "B" then some 200 else none

/-- Concrete create request used by the witnesses. -/
def reqW (d : String) : CreateReq :=
  { title := "Ten", description := "Ten percent off", discount := d,
    code := "SAVE10", validFrom := "A", validUntil := "B",
    minOrderAmount := "" }

theorem createOffer_discount_range_witness :
    ((∃ o, createOffer pfW pdW (reqW "0") [] 0 = .created o) ↔
      ∃ d, pfW (reqW "0").discount = some d ∧ 0 ≤ d ∧ d ≤ 100) ∧
    (∀ d, pfW (reqW "0").discount = some d → (d < 0 ∨ 100 < d) →
      createOffer pfW pdW (reqW "0") [] 0 = .badDiscount) ∧
    (pfW (reqW "0").discount = none →
      createOffer pfW pdW (reqW "0") [] 0 = .badDiscount) :=
  createOffer_discount_range pfW pdW (reqW "0") [] 0
    (by refine ⟨?_, ?_, ?_, ?_, ?_, ?_⟩ <;> decide) 100 200 (by decide)
    (by decide) (by decide) (by intro o ho; cases ho)
    (by refine ⟨?_, ?_, ?_, ?_⟩ <;> decide)

/-- C4: with all required fields present, the discount in range and
both dates parsing (to `f` and `u`), creation succeeds iff
`validUntil` is strictly after `validFrom`; equal instants are answered
with the 400-class result `badDateOrder`. -/
theorem createOffer_date_order (pf : String → Option ℚ)
    (pd : String → Option ℤ) (req : CreateReq) (store : List Offer) (newId : ℕ)
    (hpres : requiredPresent req) (d : ℚ)
    (hpf : pf req.discount = some d) (hd0 : 0 ≤ d) (hd1 : d ≤ 100)
    (f u : ℤ) (hf : pd req.validFrom = some f) (hu : pd req.validUntil = some u)
    (hnoconf : ∀ o ∈ store, o.code ≠ jsToUpper req.code ∧
      o.code ≠ jsTrim (jsToUpper req.code))
    (hsave : mongooseCreateOk pf req) :
    ((∃ o, createOffer pf pd req store newId = .created o) ↔ f < u) ∧
    (u = f → createOffer pf pd req store newId = .badDateOrder) := by
  obtain ⟨h1, h2, h3, h4, h5, h6⟩ := hpres
  obtain ⟨ht, hde, hco, hmo⟩ := hsave
  have hmiss : ¬(req.title = "" ∨ req.description = "" ∨ req.discount = "" ∨
      req.code = "" ∨ req.validFrom = "" ∨ req.validUntil = "") := by tauto
  have hval : ¬(jsTrim req.title = "" ∨ jsTrim req.description = "" ∨
      jsTrim (jsToUpper req.code) = "") := by tauto
  obtain ⟨mo, hmo2⟩ : ∃ q, (if req.minOrderAmount ≠ "" then
      pf req.minOrderAmount else some 0) = some q := by
    by_cases hm : req.minOrderAmount ≠ ""
    · rw [if_pos hm]
      cases hq : pf req.minOrderAmount with
      | none => exact absurd hq (hmo hm)
      | some q => exact ⟨q, rfl⟩
    · rw [if_neg hm]
      exact ⟨0, rfl⟩
  have hnr : ¬(d < 0 ∨ 100 < d) := by push_neg; exact ⟨hd0, hd1⟩
  have hb1 : store.any (fun o => o.code == jsToUpper req.code) = false :=
    any_code_eq_false (fun o ho => (hnoconf o ho).1)
  have hb2 : store.any (fun o => o.code == jsTrim (jsToUpper req.code)) = false :=
    any_code_eq_false (fun o ho => (hnoconf o ho).2)
  refine ⟨⟨?_, ?_⟩, ?_⟩
  · rintro ⟨o, ho⟩
    unfold createOffer at ho
    rw [if_neg hmiss] at ho
    by_cases hle : u ≤ f
    · simp [hpf, if_neg hnr, hf, hu, if_pos hle] at ho
    · exact not_le.mp hle
  · intro hord
    have hnotle : ¬ (u ≤ f) := not_le.mpr hord
    refine ⟨(⟨newId, jsTrim req.title, jsTrim req.description, d,
      jsTrim (jsToUpper req.code), f, u, true, mo, "", ""⟩ : Offer), ?_⟩
    unfold createOffer
    rw [if_neg hmiss]
    simp only [hpf, hf, hu, if_neg hnr, if_neg hnotle, hb1, hmo2,
      if_neg hval, hb2, Bool.false_eq_true, if_false]
  · intro heq
    unfold createOffer
    rw [if_neg hmiss]
    simp only [hpf, hf, hu, if_neg hnr, if_pos (le_of_eq heq)]

theorem createOffer_date_order_witness :
    ((∃ o, createOffer pfW pdW (reqW "50") [] 0 = .created o) ↔
      (100 : ℤ) < 200) ∧
    ((200 : ℤ) = 100 → createOffer pfW pdW (reqW "50") [] 0 = .badDateOrder) :=
  createOffer_date_order pfW pdW (reqW "50") [] 0
    (by refine ⟨?_, ?_, ?_, ?_, ?_, ?_⟩ <;> decide) 50 (by decide)
    (by decide) (by decide) 100 200 (by decide) (by decide)
    (by intro o ho; cases ho) (by refine ⟨?_, ?_, ?_, ?_⟩ <;> decide)

/-- C5: under the create route, a request whose code agrees with the
code of a stored upper-cased offer up to letter case is rejected with
the 400-class result `codeConflict` (all earlier validation passing),
and the code of every offer the route creates is fixed by upper-casing,
so stored codes are case-insensitively unique by construction. -/
theorem offer_code_case_insensitive (pf : String → Option ℚ)
    (pd : String → Option ℤ) (req : CreateReq) (store : List Offer) (newId : ℕ)
    (hpres : requiredPresent req) (d : ℚ)
    (hpf : pf req.discount = some d) (hd0 : 0 ≤ d) (hd1 : d ≤ 100)
    (f u : ℤ) (hf : pd req.validFrom = some f) (hu : pd req.validUntil = some u)
    (hord : f < u) :
    (∀ o₀ ∈ store, jsToUpper req.code = jsToUpper o₀.code →
      jsToUpper o₀.code = o₀.code →
      createOffer pf pd req store newId = .codeConflict) ∧
    (∀ o, createOffer pf pd req store newId = .created o →
      jsToUpper o.code = o.code) := by
  obtain ⟨h1, h2, h3, h4, h5, h6⟩ := hpres
  have hmiss : ¬(req.title = "" ∨ req.description = "" ∨ req.discount = "" ∨
      req.code = "" ∨ req.validFrom = "" ∨ req.validUntil = "") := by tauto
  have hnr : ¬(d < 0 ∨ 100 < d) := by push_neg; exact ⟨hd0, hd1⟩
  have hnotle : ¬ (u ≤ f) := not_le.mpr hord
  constructor
  · intro o₀ ho₀ hcase hup
    have hany : store.any (fun o => o.code == jsToUpper req.code) = true :=
      List.any_eq_true.mpr ⟨o₀, ho₀, by
        simp only [beq_iff_eq]
        exact (hcase.trans hup).symm⟩
    unfold createOffer
    rw [if_neg hmiss]
    simp only [hpf, hf, hu, if_neg hnr, if_neg hnotle, hany, if_true]
  · intro o ho
    unfold createOffer at ho
    rw [if_neg hmiss] at ho
    simp only [hpf, hf, hu, if_neg hnr, if_neg hnotle] at ho
    by_cases hc1 : store.any (fun o => o.code == jsToUpper req.code) = true
    · rw [if_pos hc1] at ho
      cases ho
    · rw [if_neg hc1] at ho
      cases hmo2 : (if req.minOrderAmount ≠ "" then pf req.minOrderAmount
          else some 0) with
      | none => simp [hmo2] at ho
      | some mo =>
        simp only [hmo2] at ho
        by_cases hval : jsTrim req.title = "" ∨ jsTrim req.description = "" ∨
            jsTrim (jsToUpper req.code) = ""
        · simp [if_pos hval] at ho
        · simp only [if_neg hval] at ho
          by_cases hc2 :
              store.any (fun o => o.code == jsTrim (jsToUpper req.code)) = true
          · rw [if_pos hc2] at ho
            cases ho
          · rw [if_neg hc2] at ho
            injection ho with h
            rw [← h]
            exact jsToUpper_jsTrim_jsToUpper req.code

/-- A stored offer used by the witnesses: code already upper-cased, as
the create route stores it. -/
def offS : Offer :=
  ⟨7, "Ten", "Ten percent off", 10, "SAVE10", 0, 1000, true, 0, "", ""⟩

/-- A create request whose code is a lower-case variant of `offS`. -/
def reqSave : CreateReq :=
  { title := "Again", description := "Second offer", discount := "50",
    code := "save10", validFrom := "A", validUntil := "B",
    minOrderAmount := "" }

theorem offer_code_case_insensitive_witness :
    createOffer pfW pdW reqSave [offS] 1 = .codeConflict :=
  (offer_code_case_insensitive pfW pdW reqSave [offS] 1
      (by refine ⟨?_, ?_, ?_, ?_, ?_, ?_⟩ <;> decide) 50 (by decide)
      (by decide) (by decide) 100 200 (by decide) (by decide)
      (by decide)).1
    offS (by simp) (by decide) (by decide)

/-- C7: the public active-offers listing contains an offer iff it is in
the store with `isActive = true` and the query instant lies inside
`[validFrom, validUntil]`; in particular an offer whose `validUntil`
has passed is excluded even when `isActive = true`. -/
theorem activeOffers_mem (store : List Offer) (now : ℤ) (o : Offer) :
    o ∈ activeOffers store now ↔
      o ∈ store ∧ o.isActive = true ∧ o.validFrom ≤ now ∧ now ≤ o.validUntil := by
  simp [activeOffers, List.mem_filter, and_assoc]

/-- Stored offer used by the update-route theorems. -/
def offA : Offer :=
  ⟨1, "Old", "Old description", 10, "SAVE10", 0, 1000, true, 0, "", ""⟩

/-- Second stored offer with a different code and id. -/
def offB : Offer :=
  ⟨2, "Other", "Other description", 20, "OTHER", 0, 1000, true, 0, "", ""⟩

/-- An update request whose `title` field is present but empty. -/
def reqTitleEmpty : UpdateReq :=
  ⟨some "", none, none, none, none, none, none, none⟩

/-- C8 counterexample: a `title` field that is present in the request
(as the empty string) is NOT overwritten — the route's `if (title)`
truthiness guard skips it — so "exactly the fields present in the
request are overwritten" fails as stated. -/
theorem updateOffer_counterexample :
    reqTitleEmpty.title = some "" ∧ offA.title = "Old" ∧
    ("Old" : String) ≠ "" ∧
    updateOffer pfW pdW [offA] 1 reqTitleEmpty = .updated [offA] := by
  decide

/-- C8 (amended): fields present with a truthy value are overwritten
(`title`, `description`, `code`, `validFrom`, `validUntil` skip empty
strings; `discount`, `isActive`, `minOrderAmount` are patched whenever
present, provided the patched document passes the schema validation
that `offer.save()` runs — discount parsing into `[0, 100]`,
`minOrderAmount` and dates parsing — otherwise the route answers 500
with nothing persisted), every absent field keeps its prior value, a
supplied code is re-checked for uniqueness against all offers except
the record's own id, and a conflicting code is answered with the
400-class `codeConflict` with nothing persisted. -/
theorem updateOffer_patch_spec (pf : String → Option ℚ)
    (pd : String → Option ℤ) (store : List Offer) (oid : ℕ) (req : UpdateReq)
    (offer : Offer)
    (hfind : store.find? (fun o => o.id == oid) = some offer) :
    (∀ c, req.code = some c → c ≠ "" →
      (∃ o ∈ store, o.id ≠ oid ∧ o.code = jsToUpper c) →
      updateOffer pf pd store oid req = .codeConflict) ∧
    ((∀ c, req.code = some c → c ≠ "" →
        ∀ o ∈ store, o.id ≠ oid → o.code ≠ jsToUpper c) →
      patchOk pf pd req = true →
      updateOffer pf pd store oid req =
        .updated (store.map (fun o =>
          if o.id == oid then patchOffer pf pd offer req else o))) ∧
    ((∀ c, req.code = some c → c ≠ "" →
        ∀ o ∈ store, o.id ≠ oid → o.code ≠ jsToUpper c) →
      patchOk pf pd req = false →
      updateOffer pf pd store oid req = .saveError) ∧
    ((patchOffer pf pd offer req).id = offer.id ∧
      (patchOffer pf pd offer req).image = offer.image ∧
      (patchOffer pf pd offer req).cloudinaryId = offer.cloudinaryId) ∧
    (req.title = none → (patchOffer pf pd offer req).title = offer.title) ∧
    (∀ t, req.title = some t → t ≠ "" →
      (patchOffer pf pd offer req).title = t) ∧
    (req.description = none →
      (patchOffer pf pd offer req).description = offer.description) ∧
    (∀ t, req.description = some t → t ≠ "" →
      (patchOffer pf pd offer req).description = t) ∧
    (req.discount = none →
      (patchOffer pf pd offer req).discount = offer.discount) ∧
    (∀ s q, req.discount = some s → pf s = some q →
      (patchOffer pf pd offer req).discount = q) ∧
    (req.code = none → (patchOffer pf pd offer req).code = offer.code) ∧
    (∀ c, req.code = some c → c ≠ "" →
      (patchOffer pf pd offer req).code = jsToUpper c) ∧
    (req.validFrom = none →
      (patchOffer pf pd offer req).validFrom = offer.validFrom) ∧
    (∀ v t, req.validFrom = some v → v ≠ "" → pd v = some t →
      (patchOffer pf pd offer req).validFrom = t) ∧
    (req.validUntil = none →
      (patchOffer pf pd offer req).validUntil = offer.validUntil) ∧
    (∀ v t, req.validUntil = some v → v ≠ "" → pd v = some t →
      (patchOffer pf pd offer req).validUntil = t) ∧
    (req.isActive = none →
      (patchOffer pf pd offer req).isActive = offer.isActive) ∧
    (∀ b, req.isActive = some b → (patchOffer pf pd offer req).isActive = b) ∧
    (req.minOrderAmount = none →
      (patchOffer pf pd offer req).minOrderAmount = offer.minOrderAmount) ∧
    (∀ m q, req.minOrderAmount = some m → pf m = some q →
      (patchOffer pf pd offer req).minOrderAmount = q) := by
  have hcondf : (∀ c, req.code = some c → c ≠ "" →
      ∀ o ∈ store, o.id ≠ oid → o.code ≠ jsToUpper c) →
      (match req.code with
        | some c' =>
          c' != "" && store.any (fun o => o.code == jsToUpper c' && o.id != oid)
        | none => false) = false := by
    intro hno
    cases hc : req.code with
    | none => rfl
    | some c =>
      by_cases hce : c = ""
      · subst hce; simp
      · have hany :
            store.any (fun o => o.code == jsToUpper c && o.id != oid) = false := by
          rw [List.any_eq_false]
          intro o ho
          simp only [Bool.and_eq_true, beq_iff_eq, bne_iff_ne, not_and]
          intro hcode hid
          exact absurd hcode (hno c hc hce o ho hid)
        simp [hany]
  refine ⟨?_, ?_, ?_, ?_, ?_, ?_, ?_, ?_, ?_, ?_, ?_, ?_, ?_, ?_, ?_, ?_,
    ?_, ?_, ?_, ?_⟩
  · intro c hc hne hconf
    obtain ⟨o, ho, hid, hcode⟩ := hconf
    have hcond : (match req.code with
        | some c' =>
          c' != "" && store.any (fun o => o.code == jsToUpper c' && o.id != oid)
        | none => false) = true := by
      rw [hc]
      simp only [Bool.and_eq_true, bne_iff_ne, List.any_eq_true, beq_iff_eq]
      exact ⟨hne, o, ho, hcode, hid⟩
    unfold updateOffer
    simp only [hfind]
    rw [if_pos hcond]
  · intro hno hok
    unfold updateOffer
    simp only [hfind]
    rw [if_neg (by simp [hcondf hno]), if_pos hok]
  · intro hno hok
    unfold updateOffer
    simp only [hfind]
    rw [if_neg (by simp [hcondf hno]), if_neg (by simp [hok])]
  · exact ⟨rfl, rfl, rfl⟩
  · intro h; simp [patchOffer, h]
  · intro t ht hne; simp [patchOffer, ht, hne]
  · intro h; simp [patchOffer, h]
  · intro t ht hne; simp [patchOffer, ht, hne]
  · intro h; simp [patchOffer, h]
  · intro s q hs hq; simp [patchOffer, hs, hq]
  · intro h; simp [patchOffer, h]
  · intro c hc hne; simp [patchOffer, hc, hne]
  · intro h; simp [patchOffer, h]
  · intro v t hv hne ht; simp [patchOffer, hv, hne, ht]
  · intro h; simp [patchOffer, h]
  · intro v t hv hne ht; simp [patchOffer, hv, hne, ht]
  · intro h; simp [patchOffer, h]
  · intro b hb; simp [patchOffer, hb]
  · intro h; simp [patchOffer, h]
  · intro m q hm hq; simp [patchOffer, hm, hq]

/-- An update request exercising several present fields at once. -/
def reqU : UpdateReq :=
  ⟨some "New", none, some "50", some "fresh10", some "A", none,
    some false, none⟩

theorem updateOffer_patch_spec_witness :
    updateOffer pfW pdW [offA, offB] 1 reqU =
      .updated ([offA, offB].map (fun o =>
        if o.id == 1 then patchOffer pfW pdW offA reqU else o)) :=
  (updateOffer_patch_spec pfW pdW [offA, offB] 1 reqU offA
      (by decide)).2.1 (by
    intro c hc hce o ho hid
    have h' : (some "fresh10" : Option String) = some c := hc
    injection h' with h''
    subst h''
    simp only [List.mem_cons, List.mem_singleton] at ho
    rcases ho with rfl | rfl | h
    · decide
    · decide
    · cases h) (by decide)

/-- A local civil time: day number (days since an epoch whose day 0 is
a Thursday, as for the JavaScript epoch 1970-01-01) plus seconds within
the day.  JavaScript `setDate` / month rollover is absorbed into plain
day arithmetic. -/
structure LocalTime where
  day : ℤ
  sec : ℤ
  deriving DecidableEq

/-- Absolute instant in seconds, the order in which `Date`s compare. -/
def LocalTime.instant (t : LocalTime) : ℤ := t.day * 86400 + t.sec

/-- JavaScript `date.getDay()`: 0 = Sunday, …, 6 = Saturday.  Day 0 of
the epoch is a Thursday, hence the `+ 4`. -/
def jsGetDay (t : LocalTime) : ℤ := (t.day + 4) % 7

/-- The `daily` case of `GET /api/sales/report`
(`new Date(y, m, d)` to `new Date(y, m, d + 1)`):
midnight of the current day to midnight of the next day. -/
def dailyWindow (now : LocalTime) : LocalTime × LocalTime :=
  (⟨now.day, 0⟩, ⟨now.day + 1, 0⟩)

/-- The `weekly` case: `startDate.setDate(now.getDate() - dayOfWeek)`
then `setHours(0,0,0,0)`, and `endDate` 7 days after `startDate`. -/
def weeklyWindow (now : LocalTime) : LocalTime × LocalTime :=
  (⟨now.day - jsGetDay now, 0⟩, ⟨now.day - jsGetDay now + 7, 0⟩)

/-- One line item of an order. -/
structure OrderItem where
  name : String
  quantity : ℕ
  price : ℚ
  deriving DecidableEq

/-- An order document, with the fields the report route and the receipt
renderer read.  `createdAt` is the local instant in seconds. -/
structure Order where
  id : String
  createdAt : ℤ
  customerName : String
  customerEmail : String
  orderStatus : String
  deliveryType : String
  address : String
  items : List OrderItem
  deliveryCharge : ℚ
  totalAmount : ℚ
  paymentStatus : String
  deriving DecidableEq

/-- The `Order.find` query of the report route: orders with
`paymentStatus: 'completed'` and `createdAt` in `[startDate, endDate)`
(`$gte` / `$lt`). -/
def selectReportOrders (orders : List Order) (s e : LocalTime) : List Order :=
  orders.filter (fun o =>
    o.paymentStatus == "completed" && decide (s.instant ≤ o.createdAt) &&
      decide (o.createdAt < e.instant))

/-- `parseFloat(x.toFixed(2))`: rounding to the nearest multiple of
1/100, ties picking the larger value, as the `toFixed` specification
does. -/
def round2 (q : ℚ) : ℚ := (round (q * 100) : ℤ) / 100

/-- The status histogram of the report summary. -/
structure StatusCounts where
  pending : ℕ
  preparing : ℕ
  outForDelivery : ℕ
  delivered : ℕ
  deriving DecidableEq

/-- The `summary` object of the report response. -/
structure SalesSummary where
  totalSales : ℚ
  totalOrders : ℕ
  totalDeliveryCharges : ℚ
  averageOrderValue : ℚ
  pickupOrders : ℕ
  deliveryOrders : ℕ
  statusCounts : StatusCounts
  deriving DecidableEq

/-- The totals block of the report route: `reduce` sums, `filter`
counts, the four-status histogram, and the guarded average
(`totalOrders > 0 ? … : 0`).  `parseFloat(x.toFixed(2))` is `round2`;
the average divides the un-rounded `totalSales` variable. -/
def salesSummary (orders : List Order) : SalesSummary :=
  let totalSales : ℚ := orders.foldl (fun s o => s + o.totalAmount) 0
  let totalOrders : ℕ := orders.length
  let totalDeliveryCharges : ℚ :=
    orders.foldl (fun s o => s + o.deliveryCharge) 0
  { totalSales := round2 totalSales
    totalOrders := totalOrders
    totalDeliveryCharges := round2 totalDeliveryCharges
    averageOrderValue :=
      if 0 < totalOrders then round2 (totalSales / totalOrders) else 0
    pickupOrders := (orders.filter (fun o => o.deliveryType == "pickup")).length
    deliveryOrders :=
      (orders.filter (fun o => o.deliveryType == "delivery")).length
    statusCounts :=
      { pending := (orders.filter (fun o => o.orderStatus == "Pending")).length
        preparing :=
          (orders.filter (fun o => o.orderStatus == "Preparing")).length
        outForDelivery :=
          (orders.filter (fun o => o.orderStatus == "Out for Delivery")).length
        delivered :=
          (orders.filter (fun o => o.orderStatus == "Delivered")).length } }

/-- C2: the weekly report window starts at the most recent Sunday
midnight — day-of-week 0, at most 6 days back, the same day when the
reference instant is already a Sunday — and ends exactly 7 days
later. -/
theorem weeklyWindow_spec (now : LocalTime) :
    (weeklyWindow now).1.sec = 0 ∧
    jsGetDay (weeklyWindow now).1 = 0 ∧
    (weeklyWindow now).1.day ≤ now.day ∧
    now.day < (weeklyWindow now).1.day + 7 ∧
    (jsGetDay now = 0 → (weeklyWindow now).1.day = now.day) ∧
    (weeklyWindow now).2 = ⟨(weeklyWindow now).1.day + 7, 0⟩ := by
  unfold weeklyWindow jsGetDay
  refine ⟨rfl, ?_, ?_, ?_, ?_, rfl⟩ <;> simp only [] <;> omega

theorem weeklyWindow_spec_witness :
    (weeklyWindow ⟨3, 3600⟩).1.day = 3 ∧
    jsGetDay (weeklyWindow ⟨6, 0⟩).1 = 0 ∧
    (weeklyWindow ⟨6, 0⟩).2 = ⟨(weeklyWindow ⟨6, 0⟩).1.day + 7, 0⟩ :=
  ⟨(weeklyWindow_spec ⟨3, 3600⟩).2.2.2.2.1 (by decide),
    (weeklyWindow_spec ⟨6, 0⟩).2.1,
    (weeklyWindow_spec ⟨6, 0⟩).2.2.2.2.2⟩

/-- C3: the daily report selects exactly the completed-payment orders
created in the half-open window `[midnight today, midnight tomorrow)`;
an order from one second before midnight is excluded, one from one
second after midnight is included. -/
theorem dailyReport_selects (orders : List Order) (now : LocalTime)
    (o : Order) :
    (o ∈ selectReportOrders orders (dailyWindow now).1 (dailyWindow now).2 ↔
      o ∈ orders ∧ o.paymentStatus = "completed" ∧
        now.day * 86400 ≤ o.createdAt ∧ o.createdAt < (now.day + 1) * 86400) ∧
    (o.createdAt = now.day * 86400 - 1 →
      o ∉ selectReportOrders orders (dailyWindow now).1 (dailyWindow now).2) ∧
    (o ∈ orders → o.paymentStatus = "completed" →
      o.createdAt = now.day * 86400 + 1 →
      o ∈ selectReportOrders orders (dailyWindow now).1 (dailyWindow now).2) := by
  have hiff : o ∈ selectReportOrders orders (dailyWindow now).1
      (dailyWindow now).2 ↔
      o ∈ orders ∧ o.paymentStatus = "completed" ∧
        now.day * 86400 ≤ o.createdAt ∧ o.createdAt < (now.day + 1) * 86400 := by
    simp [selectReportOrders, dailyWindow, LocalTime.instant, List.mem_filter,
      and_assoc]
  refine ⟨hiff, ?_, ?_⟩
  · intro hco hmem
    rw [hiff] at hmem
    obtain ⟨-, -, hle, -⟩ := hmem
    omega
  · intro hm hp hco
    rw [hiff]
    exact ⟨hm, hp, by omega, by omega⟩

/-- Reference instant used by the daily-report witness. -/
def nowW : LocalTime := ⟨10, 43200⟩

/-- An order created one second before today's midnight. -/
def ordLate : Order :=
  ⟨"a1", 10 * 86400 - 1, "Ann", "ann@x", "Pending", "pickup", "", [], 0, 10,
    "completed"⟩

/-- An order created one second after today's midnight. -/
def ordEarly : Order :=
  ⟨"a2", 10 * 86400 + 1, "Ben", "ben@x", "Pending", "pickup", "", [], 0, 12,
    "completed"⟩

theorem dailyReport_selects_witness :
    ordLate ∉ selectReportOrders [ordLate, ordEarly] (dailyWindow nowW).1
      (dailyWindow nowW).2 ∧
    ordEarly ∈ selectReportOrders [ordLate, ordEarly] (dailyWindow nowW).1
      (dailyWindow nowW).2 :=
  ⟨(dailyReport_selects [ordLate, ordEarly] nowW ordLate).2.1 (by decide),
    (dailyReport_selects [ordLate, ordEarly] nowW ordEarly).2.2 (by decide)
      (by decide) (by decide)⟩

/-- C6: the reported average order value is the total sales divided by
the order count rounded to 2 decimals when the count is positive, and
is exactly 0 when the window holds no orders. -/
theorem averageOrderValue_spec (orders : List Order) :
    (orders.length = 0 → (salesSummary orders).averageOrderValue = 0) ∧
    (0 < orders.length →
      (salesSummary orders).averageOrderValue =
        round2 ((orders.foldl (fun s o => s + o.totalAmount) 0) /
          orders.length)) := by
  constructor
  · intro h
    simp [salesSummary, h]
  · intro h
    simp [salesSummary, h]

theorem averageOrderValue_spec_witness :
    (salesSummary ([] : List Order)).averageOrderValue = 0 ∧
    (salesSummary [ordEarly]).averageOrderValue =
      round2 (([ordEarly].foldl (fun s o => s + o.totalAmount) 0) /
        ([ordEarly] : List Order).length) :=
  ⟨(averageOrderValue_spec []).1 rfl,
    (averageOrderValue_spec [ordEarly]).2 (by decide)⟩

lemma countP_four_le {α : Type} (p q r s : α → Bool) (l : List α)
    (hone : ∀ a, (if p a then 1 else 0) + (if q a then 1 else 0) +
      (if r a then 1 else 0) + (if s a then 1 else 0) ≤ 1) :
    l.countP p + l.countP q + l.countP r + l.countP s ≤ l.length := by
  induction l with
  | nil => simp
  | cons a t ih =>
    simp only [List.countP_cons, List.length_cons]
    have ha := hone a
    omega

lemma countP_four_lt {α : Type} (p q r s : α → Bool) (l : List α)
    (hone : ∀ a, (if p a then 1 else 0) + (if q a then 1 else 0) +
      (if r a then 1 else 0) + (if s a then 1 else 0) ≤ 1)
    (x : α) (hx : x ∈ l) (hxp : p x = false) (hxq : q x = false)
    (hxr : r x = false) (hxs : s x = false) :
    l.countP p + l.countP q + l.countP r + l.countP s < l.length := by
  induction l with
  | nil => cases hx
  | cons a t ih =>
    simp only [List.countP_cons, List.length_cons]
    rcases List.mem_cons.mp hx with rfl | hxt
    · have hb := countP_four_le p q r s t hone
      simp only [hxp, hxq, hxr, hxs, Bool.false_eq_true, if_false]
      omega
    · have hb := ih hxt
      have ha := hone a
      omega

lemma countP_two_le {α : Type} (p q : α → Bool) (l : List α)
    (hone : ∀ a, (if p a then 1 else 0) + (if q a then 1 else 0) ≤ 1) :
    l.countP p + l.countP q ≤ l.length := by
  induction l with
  | nil => simp
  | cons a t ih =>
    simp only [List.countP_cons, List.length_cons]
    have ha := hone a
    omega

/-- C10: in any report summary the four status counts add up to at most
the total order count — strictly less as soon as some order in the
window carries a status outside the four tabulated ones — and the
pickup and delivery counts likewise add up to at most the total. -/
theorem statusCounts_bounds (orders : List Order) :
    ((salesSummary orders).statusCounts.pending +
      (salesSummary orders).statusCounts.preparing +
      (salesSummary orders).statusCounts.outForDelivery +
      (salesSummary orders).statusCounts.delivered ≤
      (salesSummary orders).totalOrders) ∧
    ((∃ o ∈ orders, o.orderStatus ≠ "Pending" ∧ o.orderStatus ≠ "Preparing" ∧
        o.orderStatus ≠ "Out for Delivery" ∧ o.orderStatus ≠ "Delivered") →
      (salesSummary orders).statusCounts.pending +
        (salesSummary orders).statusCounts.preparing +
        (salesSummary orders).statusCounts.outForDelivery +
        (salesSummary orders).statusCounts.delivered <
        (salesSummary orders).totalOrders) ∧
    ((salesSummary orders).pickupOrders + (salesSummary orders).deliveryOrders ≤
      (salesSummary orders).totalOrders) := by
  have hone4 : ∀ a : Order,
      (if a.orderStatus == "Pending" then 1 else 0) +
      (if a.orderStatus == "Preparing" then 1 else 0) +
      (if a.orderStatus == "Out for Delivery" then 1 else 0) +
      (if a.orderStatus == "Delivered" then 1 else 0) ≤ 1 := by
    intro a
    simp only [beq_iff_eq]
    by_cases h1 : a.orderStatus = "Pending" <;>
      by_cases h2 : a.orderStatus = "Preparing" <;>
      by_cases h3 : a.orderStatus = "Out for Delivery" <;>
      by_cases h4 : a.orderStatus = "Delivered" <;>
      simp_all
  have hone2 : ∀ a : Order,
      (if a.deliveryType == "pickup" then 1 else 0) +
      (if a.deliveryType == "delivery" then 1 else 0) ≤ 1 := by
    intro a
    simp only [beq_iff_eq]
    by_cases h1 : a.deliveryType = "pickup" <;>
      by_cases h2 : a.deliveryType = "delivery" <;>
      simp_all
  simp only [salesSummary, ← List.countP_eq_length_filter]
  refine ⟨countP_four_le _ _ _ _ orders hone4, ?_,
    countP_two_le _ _ orders hone2⟩
  rintro ⟨o, ho, h1, h2, h3, h4⟩
  exact countP_four_lt _ _ _ _ orders hone4 o ho
    (by simp [h1]) (by simp [h2]) (by simp [h3]) (by simp [h4])

/-- A cancelled order inside the witness window. -/
def ordCancelled : Order :=
  ⟨"a3", 10 * 86400 + 2, "Cyd", "cyd@x", "Cancelled", "delivery", "Main 1",
    [], 3, 15, "completed"⟩

theorem statusCounts_bounds_witness :
    (salesSummary [ordEarly, ordCancelled]).statusCounts.pending +
      (salesSummary [ordEarly, ordCancelled]).statusCounts.preparing +
      (salesSummary [ordEarly, ordCancelled]).statusCounts.outForDelivery +
      (salesSummary [ordEarly, ordCancelled]).statusCounts.delivered <
      (salesSummary [ordEarly, ordCancelled]).totalOrders :=
  (statusCounts_bounds [ordEarly, ordCancelled]).2.1
    ⟨ordCancelled, by decide, by decide, by decide, by decide, by decide⟩

/-- JavaScript `s.slice(-8)`: the last 8 characters (or the whole
string when shorter). -/
def sliceLast8 (s : String) : String := ⟨s.data.drop (s.data.length - 8)⟩

/-- Zero-padded two-digit rendering of a number below 100. -/
def pad2 (k : ℕ) : String := if k < 10 then "0" ++ toString k else toString k

/-- JavaScript `x.toFixed(2)`: round to cents, then print with two
decimal places. -/
def toFixed2 (q : ℚ) : String :=
  let c : ℤ := round (q * 100)
  (if c < 0 then "-" else "") ++ toString (c.natAbs / 100) ++ "." ++
    pad2 (c.natAbs % 100)

/-- The address line of the receipt. -/
def addressLineHtml (o : Order) : String :=
  "<p><strong>Address:</strong> " ++ o.address ++ "</p>"

/-- The conditional address interpolation of `generateOrderPDF`:
`order.deliveryType === 'delivery' && order.address ? … : ''`. -/
def receiptAddressSection (o : Order) : String :=
  if o.deliveryType = "delivery" ∧ o.address ≠ "" then addressLineHtml o
  else ""

/-- One `<td>` cell of the item table. -/
def itemCell (s : String) : String := "<td>" ++ s ++ "</td>"

/-- One row of the item table: name, quantity, unit price, and the row
total `item.price * item.quantity`. -/
def itemRowHtml (i : OrderItem) : String :=
  "\n        <tr>\n          " ++ itemCell i.name ++ "\n          " ++
    itemCell (toString i.quantity) ++ "\n          " ++
    itemCell ("$" ++ toFixed2 i.price) ++ "\n          " ++
    itemCell ("$" ++ toFixed2 (i.price * (i.quantity : ℚ))) ++
    "\n        </tr>\n      "

/-- The subtotal line: `totalAmount - deliveryCharge`. -/
def subtotalLineHtml (o : Order) : String :=
  "<p>Subtotal: $" ++ toFixed2 (o.totalAmount - o.deliveryCharge) ++ "</p>"

/-- The delivery-charge line. -/
def deliveryChargeLineHtml (o : Order) : String :=
  "<p>Delivery Charge: $" ++ toFixed2 o.deliveryCharge ++ "</p>"

/-- The conditional totals interpolation:
`order.deliveryCharge > 0 ? `subtotal + delivery lines` : ''`. -/
def receiptTotalsSection (o : Order) : String :=
  if 0 < o.deliveryCharge then
    subtotalLineHtml o ++ "\n    " ++ deliveryChargeLineHtml o
  else ""

/-- `array.map(f).join('')` on strings. -/
def joinStrings (l : List String) : String := ⟨(l.map String.data).flatten⟩

/-- Everything of the receipt template before the conditional address
line: document head, style block, header, and the order-information
lines (order id, date, customer, email, status, type). -/
def receiptPre (fmtDate : ℤ → String) (o : Order) : String :=
  "\n<!DOCTYPE html>\n<html>\n<head>\n  <title>Order Receipt - " ++
    sliceLast8 o.id ++
    "</title>\n  <style>\n    body \x7b\n      font-family: Arial, sans-serif;\n      max-width: 800px;\n      margin: 0 auto;\n      padding: 20px;\n    \x7d\n    .header \x7b\n      text-align: center;\n      border-bottom: 2px solid #000;\n      padding-bottom: 20px;\n      margin-bottom: 20px;\n    \x7d\n    .order-info \x7b\n      margin-bottom: 20px;\n    \x7d\n    .order-info h2 \x7b\n      color: #333;\n    \x7d\n    table \x7b\n      width: 100%;\n      border-collapse: collapse;\n      margin: 20px 0;\n    \x7d\n    th, td \x7b\n      border: 1px solid #ddd;\n      padding: 12px;\n      text-align: left;\n    \x7d\n    th \x7b\n      background-color: #f2f2f2;\n      font-weight: bold;\n    \x7d\n    .total \x7b\n      text-align: right;\n      font-size: 18px;\n      font-weight: bold;\n      margin-top: 20px;\n    \x7d\n    .footer \x7b\n      margin-top: 40px;\n      text-align: center;\n      color: #666;\n      font-size: 12px;\n    \x7d\n  </style>\n</head>\n<body>\n  <div class=\"header\">\n    <h1>American Pizza</h1>\n    <p>Order Receipt</p>\n  </div>\n  \n  <div class=\"order-info\">\n    <h2>Order Information</h2>\n    <p><strong>Order ID:</strong> " ++
    o.id ++ "</p>\n    <p><strong>Date:</strong> " ++ fmtDate o.createdAt ++
    "</p>\n    <p><strong>Customer:</strong> " ++ o.customerName ++
    "</p>\n    <p><strong>Email:</strong> " ++ o.customerEmail ++
    "</p>\n    <p><strong>Status:</strong> " ++ o.orderStatus ++
    "</p>\n    <p><strong>Type:</strong> " ++
    (if o.deliveryType = "pickup" then "Pickup" else "Delivery") ++
    "</p>\n    "

/-- Template text between the address section and the item rows. -/
def receiptMid : String :=
  "\n  </div>\n  \n  <h2>Order Items</h2>\n  <table>\n    <thead>\n      <tr>\n        <th>Item</th>\n        <th>Quantity</th>\n        <th>Price</th>\n        <th>Total</th>\n      </tr>\n    </thead>\n    <tbody>\n      "

/-- Template text between the item rows and the totals section. -/
def receiptAfterItems : String :=
  "\n    </tbody>\n  </table>\n  \n  <div class=\"total\">\n    "

/-- Template text after the totals section: grand total and footer. -/
def receiptClose (o : Order) : String :=
  "\n    <p>Total Amount: $" ++ toFixed2 o.totalAmount ++
    "</p>\n  </div>\n  \n  <div class=\"footer\">\n    <p>Thank you for your order!</p>\n    <p>American Pizza - Bahnhof str.119, 47137 Duisburg</p>\n    <p>Contact: 015213759078 | kenkeswary11@icloud.com</p>\n  </div>\n</body>\n</html>\n  "

/-- `generateOrderPDF` of the PDF utility module: a pure function from
the order record (plus the ambient locale date formatter) to the
printable HTML document. -/
def generateOrderPDF (fmtDate : ℤ → String) (o : Order) : String :=
  receiptPre fmtDate o ++ receiptAddressSection o ++ receiptMid ++
    joinStrings (o.items.map itemRowHtml) ++ receiptAfterItems ++
    receiptTotalsSection o ++ receiptClose o

lemma infix_data_of (x w : String) (a c : List Char)
    (hw : w.data = a ++ x.data ++ c) : x.data <:+: w.data :=
  ⟨a, c, hw.symm⟩

lemma mem_map_join_embed (f : OrderItem → String) (l : List OrderItem)
    (i : OrderItem) (hi : i ∈ l) :
    (f i).data <:+: (joinStrings (l.map f)).data := by
  induction l with
  | nil => cases hi
  | cons a t ih =>
    rcases List.mem_cons.mp hi with rfl | hit
    · exact ⟨[], ((t.map f).map String.data).flatten, by
        simp [joinStrings]⟩
    · obtain ⟨s1, s2, hs⟩ := ih hit
      refine ⟨(f a).data ++ s1, s2, ?_⟩
      simp only [joinStrings, List.map_cons, List.flatten_cons] at hs ⊢
      rw [← hs]
      simp [List.append_assoc]

/-- C9: the receipt renderer is a pure function of the order record:
its output embeds the address line iff the order is a delivery with a
non-empty address (and ignores the address entirely otherwise), embeds
the subtotal line showing `totalAmount - deliveryCharge` and the
delivery-charge line iff the delivery charge is positive, and embeds
one table row per line item whose total cell shows
`price * quantity`. -/
theorem generateOrderPDF_spec (fmtDate : ℤ → String) (o : Order) :
    (receiptAddressSection o ≠ "" ↔
      o.deliveryType = "delivery" ∧ o.address ≠ "") ∧
    (o.deliveryType = "delivery" → o.address ≠ "" →
      (addressLineHtml o).data <:+: (generateOrderPDF fmtDate o).data) ∧
    (o.deliveryType ≠ "delivery" → ∀ a,
      generateOrderPDF fmtDate { o with address := a } =
        generateOrderPDF fmtDate o) ∧
    (receiptTotalsSection o ≠ "" ↔ 0 < o.deliveryCharge) ∧
    (0 < o.deliveryCharge →
      (subtotalLineHtml o).data <:+: (generateOrderPDF fmtDate o).data ∧
      (deliveryChargeLineHtml o).data <:+: (generateOrderPDF fmtDate o).data) ∧
    (∀ i ∈ o.items,
      (itemRowHtml i).data <:+: (generateOrderPDF fmtDate o).data) ∧
    (∀ i, (itemCell ("$" ++ toFixed2 (i.price * (i.quantity : ℚ)))).data <:+:
      (itemRowHtml i).data) := by
  refine ⟨?_, ?_, ?_, ?_, ?_, ?_, ?_⟩
  · constructor
    · intro h
      by_cases hc : o.deliveryType = "delivery" ∧ o.address ≠ ""
      · exact hc
      · exact absurd (by unfold receiptAddressSection; rw [if_neg hc]) h
    · intro hc
      unfold receiptAddressSection
      rw [if_pos hc]
      intro he
      have h2 := congrArg String.length he
      simp only [addressLineHtml, String.length_append] at h2
      have h4 : 0 < ("<p><strong>Address:</strong> " : String).length := by
        decide
      have h5 : ("" : String).length = 0 := rfl
      omega
  · intro hd ha
    have hsec : receiptAddressSection o = addressLineHtml o := by
      unfold receiptAddressSection; rw [if_pos ⟨hd, ha⟩]
    refine infix_data_of _ _ ((receiptPre fmtDate o).data)
      (receiptMid.data ++ (joinStrings (o.items.map itemRowHtml)).data ++
        receiptAfterItems.data ++ (receiptTotalsSection o).data ++
        (receiptClose o).data) ?_
    simp [generateOrderPDF, hsec, List.append_assoc]
  · intro hd a
    have h1 : receiptAddressSection { o with address := a } = "" := by
      unfold receiptAddressSection
      rw [if_neg (by simp [hd])]
    have h2 : receiptAddressSection o = "" := by
      unfold receiptAddressSection
      rw [if_neg (by simp [hd])]
    simp [generateOrderPDF, h1, h2, receiptPre, receiptTotalsSection,
      subtotalLineHtml, deliveryChargeLineHtml, receiptClose]
  · constructor
    · intro h
      by_cases hc : 0 < o.deliveryCharge
      · exact hc
      · exact absurd (by unfold receiptTotalsSection; rw [if_neg hc]) h
    · intro hc
      unfold receiptTotalsSection
      rw [if_pos hc]
      intro he
      have h2 := congrArg String.length he
      simp only [subtotalLineHtml, deliveryChargeLineHtml,
        String.length_append] at h2
      have h4 : 0 < ("<p>Subtotal: $" : String).length := by decide
      have h5 : ("" : String).length = 0 := rfl
      omega
  · intro hpos
    have hsec : receiptTotalsSection o =
        subtotalLineHtml o ++ "\n    " ++ deliveryChargeLineHtml o := by
      unfold receiptTotalsSection; rw [if_pos hpos]
    constructor
    · refine infix_data_of _ _
        ((receiptPre fmtDate o).data ++ (receiptAddressSection o).data ++
          receiptMid.data ++ (joinStrings (o.items.map itemRowHtml)).data ++
          receiptAfterItems.data)
        (("\n    " : String).data ++ (deliveryChargeLineHtml o).data ++
          (receiptClose o).data) ?_
      simp [generateOrderPDF, hsec, List.append_assoc]
    · refine infix_data_of _ _
        ((receiptPre fmtDate o).data ++ (receiptAddressSection o).data ++
          receiptMid.data ++ (joinStrings (o.items.map itemRowHtml)).data ++
          receiptAfterItems.data ++ (subtotalLineHtml o).data ++
          ("\n    " : String).data)
        ((receiptClose o).data) ?_
      simp [generateOrderPDF, hsec, List.append_assoc]
  · intro i hi
    have h1 := mem_map_join_embed itemRowHtml o.items i hi
    have h2 : (joinStrings (o.items.map itemRowHtml)).data <:+:
        (generateOrderPDF fmtDate o).data := by
      refine infix_data_of _ _
        ((receiptPre fmtDate o).data ++ (receiptAddressSection o).data ++
          receiptMid.data)
        (receiptAfterItems.data ++ (receiptTotalsSection o).data ++
          (receiptClose o).data) ?_
      simp [generateOrderPDF, List.append_assoc]
    exact h1.trans h2
  · intro i
    refine infix_data_of _ _
      (("\n        <tr>\n          " : String).data ++
        (itemCell i.name).data ++ ("\n          " : String).data ++
        (itemCell (toString i.quantity)).data ++
        ("\n          " : String).data ++
        (itemCell ("$" ++ toFixed2 i.price)).data ++
        ("\n          " : String).data)
      (("\n        </tr>\n      " : String).data) ?_
    simp [itemRowHtml, List.append_assoc]

/-- Concrete locale date formatter used by the receipt witness. -/
def fmtW : ℤ → String := fun _ => "1/1/2024, 12:00:00 PM"

/-- Concrete delivery order used by the receipt witness. -/
def ordRec : Order :=
  ⟨"ORDER123", 0, "Cyd", "cyd@x", "Pending", "delivery", "Main St 1",
    [⟨"Margherita", 2, 10⟩], 3, 23, "completed"⟩

theorem generateOrderPDF_spec_witness :
    (addressLineHtml ordRec).data <:+: (generateOrderPDF fmtW ordRec).data ∧
    (subtotalLineHtml ordRec).data <:+: (generateOrderPDF fmtW ordRec).data ∧
    (itemRowHtml ⟨"Margherita", 2, 10⟩).data <:+:
      (generateOrderPDF fmtW ordRec).data :=
  ⟨(generateOrderPDF_spec fmtW ordRec).2.1 (by decide) (by decide),
    ((generateOrderPDF_spec fmtW ordRec).2.2.2.2.1 (by decide)).1,
    (generateOrderPDF_spec fmtW ordRec).2.2.2.2.2.1 ⟨"Margherita", 2, 10⟩
      (by decide)⟩

end AmericanPizza
